import Mathlib

/-!
Verification of the segment-reconciliation, session-bridge and
dispatch-queue logic of the `smartice_ims` backend
(`backend/app/services/xunfei_asr.py`, `backend/app/services/queue_service.py`,
`backend/app/services/qwen_extractor.py`, `backend/app/routes/voice.py`).

The Python dictionaries, coroutine pumps and the redis-backed worker loop are
shallowly embedded: the segment dictionary `rec_text` becomes an association
list with replace-on-insert semantics, the two pumps of
`transcribe_realtime` become step functions over an explicit interleaving of
wake-up events, and the worker loop of `QueueService.start_worker` becomes a
labelled transition system on its in-flight counter.
-/

namespace SmarticeIMS

/-! ## Segment reconciler (`xunfei_asr.py`, `transcribe_realtime`)

`rec_text : dict[int, str]` is embedded as an association list.  All reads go
through `dictGet`; `dictSet`/`dictPop` keep at most one binding per key, which
is the dictionary semantics. -/

/-- The `rec_text : dict[int, str]` state of `transcribe_realtime`. -/
abbrev RecText := List (Nat × String)

/-- `rec_text[k] = v` — dictionary assignment replaces any previous binding. -/
def dictSet (m : RecText) (k : Nat) (v : String) : RecText :=
  (k, v) :: m.filter (fun p => p.1 != k)

/-- `rec_text.pop(k, None)` — remove the binding at `k` if present. -/
def dictPop (m : RecText) (k : Nat) : RecText :=
  m.filter (fun p => p.1 != k)

/-- `rec_text.get(k)` — the current binding at key `k`, if any. -/
def dictGet (m : RecText) (k : Nat) : Option String :=
  (m.find? (fun p => p.1 == k)).map Prod.snd

/-- `for i in range(lo, hi + 1): rec_text.pop(i, None)` —
the removal loop of the `pgs == "rpl"` branch (`range(rg[0] + 1, rg[1] + 1)`
with `lo = rg[0] + 1`, `hi = rg[1]`). -/
def popRange (m : RecText) (lo hi : Nat) : RecText :=
  (List.range' lo (hi + 1 - lo)).foldl dictPop m

/-- One provider update as consumed by `receive_from_xunfei`:
`sn = result.get("sn", 0)` (`none` models a message with no `sn` field),
`text` the concatenation of the `cw`/`w` words, `pgs = result.get("pgs", "apd")`,
`rg = result.get("rg", [])`. -/
structure XfUpdate where
  sn : Option Nat
  text : String
  pgs : String
  rg : List Nat
  deriving DecidableEq, Repr

/-- The update-application block of `receive_from_xunfei`
(lines 297–305): an update is processed only `if partial_text or pgs == "rpl"`;
a replacement (`pgs == "rpl" and rg and len(rg) >= 2`) sets
`rec_text[rg[0]] = partial_text` and then pops every key in
`range(rg[0] + 1, rg[1] + 1)`; otherwise `rec_text[sn] = partial_text`
(a missing `sn` defaults to `0`). -/
def applyUpdate (m : RecText) (u : XfUpdate) : RecText :=
  if u.text ≠ "" ∨ u.pgs = "rpl" then
    if u.pgs = "rpl" ∧ u.rg ≠ [] ∧ 2 ≤ u.rg.length then
      popRange (dictSet m (u.rg.headD 0) u.text) (u.rg.headD 0 + 1) (u.rg.getD 1 0)
    else
      dictSet m (u.sn.getD 0) u.text
  else m

/-- The ascending key order used by `get_current_text`
(`sorted(rec_text.keys())`).  The keys of a Python dictionary are distinct, so
`sorted(keys)` is the ascending enumeration of the key set; `dedup` makes the
embedding total on raw association lists and is the identity on every state
the operations produce. -/
def sortedKeys (m : RecText) : List Nat :=
  ((m.map Prod.fst).dedup).insertionSort (· ≤ ·)

/-- `get_current_text` (lines 237–241): `""` for an empty map, otherwise
`"".join(rec_text[k] for k in sorted(rec_text.keys()))`. -/
def get_current_text (m : RecText) : String :=
  if m = [] then ""
  else String.join ((sortedKeys m).map (fun k => (dictGet m k).getD ""))

/-- A non-replacement (`pgs = "apd"`) update carrying sequence `p.1` and
text `p.2`. -/
def appendUpd (p : Nat × String) : XfUpdate :=
  { sn := some p.1, text := p.2, pgs := "apd", rg := [] }

/-- Folding a list of append updates into the reconciler, in arrival order. -/
def applyAppends (us : List (Nat × String)) (m : RecText) : RecText :=
  us.foldl (fun acc p => applyUpdate acc (appendUpd p)) m

/-! ## Transcription session (`transcribe_realtime` and the `/ws` route)

The two pumps `send_to_xunfei` and `receive_from_xunfei` run under the
cooperative asyncio scheduler: shared state (`rec_text`, `full_text`,
`recognition_done`) changes only at suspension points.  A session execution is
therefore an interleaving of wake-ups, each wake-up being the completion of
one `await` of a pump followed by its synchronous processing code. -/

/-- One client message as parsed by `send_to_xunfei`
(`message.get("type", "")`). -/
inductive ClientMsg where
  | audio (data : String)
  | endRec
  | cancel
  | other (t : String)
  deriving DecidableEq, Repr

/-- Messages sent to the client over the websocket. -/
inductive ServerMsg where
  | statusListening
  | partialText (text : String)
  | errorMsg (error : String)
  | stopRecording
  | textFinal (text : String)
  deriving DecidableEq, Repr

/-- One provider message as parsed by `receive_from_xunfei`:
`code = result.get("code", -1)`, `message = result.get("message", ...)`,
`hasData` is the truthiness of `result.get("data", {})`, `update` the
`sn`/`pgs`/`rg`/words fields of `data.result`, and
`status = data.get("status", 0)`. -/
structure ProviderMsg where
  code : Int
  message : String
  hasData : Bool
  update : XfUpdate
  status : Nat
  deriving DecidableEq, Repr

/-- The shared state of one `transcribe_realtime` call, plus the observable
output of both pumps (frames forwarded to the provider, messages emitted to
the client). -/
structure SessionState where
  recText : RecText
  fullText : String
  done : Bool
  sendExited : Bool
  recvExited : Bool
  sentFrames : List String
  sentEndFrame : Bool
  clientOut : List ServerMsg
  deriving DecidableEq, Repr

def initialSession : SessionState :=
  { recText := [], fullText := "", done := false, sendExited := false,
    recvExited := false, sentFrames := [], sentEndFrame := false,
    clientOut := [] }

/-- One wake-up of `receive_from_xunfei` (lines 256–328).  `none` models the
30 s `asyncio.wait_for` timeout or an exception on `recv` (both handlers set
`recognition_done` and return); `some pm` a parsed provider message.  A
non-zero `code` sends an error to the client and breaks — without setting
`recognition_done`.  With data present, the update block mirrors
`applyUpdate`, a `partial` message is emitted whenever the update is recorded,
and `status == 2` refreshes `full_text`, sets `recognition_done` and exits. -/
def recvStep (s : SessionState) (pm : Option ProviderMsg) : SessionState :=
  if s.recvExited then s
  else
    match pm with
    | none => { s with done := true, recvExited := true }
    | some pm =>
      if pm.code ≠ 0 then
        { s with
          clientOut := s.clientOut ++ [ServerMsg.errorMsg ("ASR Error: " ++ pm.message)],
          recvExited := true }
      else if pm.hasData then
        let u := pm.update
        let s1 :=
          if u.text ≠ "" ∨ u.pgs = "rpl" then
            let rt := applyUpdate s.recText u
            { s with recText := rt, fullText := get_current_text rt,
                     clientOut := s.clientOut ++ [ServerMsg.partialText (get_current_text rt)] }
          else s
        if pm.status = 2 then
          { s1 with fullText := get_current_text s1.recText, done := true,
                    recvExited := true }
        else s1
      else s

/-- One wake-up of `send_to_xunfei` (lines 330–376).  `none` models the 0.5 s
read timeout (`continue`), `some m` a parsed client message.  The
`recognition_done` flag is sampled once per wake-up: the loop-top `is_set`
break and the per-message re-checks observe the same value because the flag
only changes at suspension points between wake-ups, and every branch taken
with the flag set forwards nothing and stops at the next loop top.  An audio
chunk with nonempty data is forwarded to the provider; `end` sends the final
frame once and exits; `cancel` exits immediately without a final frame;
unknown types loop. -/
def sendStep (s : SessionState) (cm : Option ClientMsg) : SessionState :=
  if s.sendExited then s
  else if s.done then { s with sendExited := true }
  else
    match cm with
    | none => s
    | some (ClientMsg.audio d) =>
      if d ≠ "" then { s with sentFrames := s.sentFrames ++ [d] } else s
    | some ClientMsg.endRec => { s with sentEndFrame := true, sendExited := true }
    | some ClientMsg.cancel => { s with sendExited := true }
    | some (ClientMsg.other _) => s

/-- One scheduler wake-up: either pump resumes. -/
inductive SessionEvent where
  | client (m : Option ClientMsg)
  | provider (m : Option ProviderMsg)
  deriving DecidableEq, Repr

def sessionStep (s : SessionState) (e : SessionEvent) : SessionState :=
  match e with
  | SessionEvent.client m => sendStep s m
  | SessionEvent.provider m => recvStep s m

/-- A session execution over an explicit interleaving of wake-ups. -/
def sessionRun (events : List SessionEvent) : SessionState :=
  events.foldl sessionStep initialSession

/-- Whether a wake-up delivers the terminal status of the provider
(`code == 0`, data present, `status == 2`). -/
def isProviderTerminal : SessionEvent → Bool
  | SessionEvent.provider (some pm) => pm.code == 0 && pm.hasData && pm.status == 2
  | _ => false

/-- Result of one `start`-triggered session as driven by
`voice_entry_websocket` (`voice.py` lines 132–166). -/
structure RouteResult where
  clientOut : List ServerMsg
  providerClosed : Bool
  deriving DecidableEq, Repr

/-- `voice_entry_websocket` around one `transcribe_realtime` call: the pumps
are gathered (exceptions are caught inside each pump, so the call returns
`full_text` normally), the provider socket is closed in the `finally` block,
and then the route sends `stop_recording` followed by `text_final` with the
returned text.  `clientConnected` distinguishes a live client websocket from
a disconnected one (where `send_json` raises and no terminal message is
delivered). -/
def routeSession (events : List SessionEvent) (clientConnected : Bool) :
    RouteResult :=
  let s := sessionRun events
  if clientConnected then
    { clientOut := s.clientOut ++ [ServerMsg.stopRecording, ServerMsg.textFinal s.fullText],
      providerClosed := true }
  else
    { clientOut := s.clientOut, providerClosed := true }

/-- A trace in which the client cancels before any provider activity and the
receive pump then times out: the concrete run used to settle the
cancellation claim. -/
def cancelTrace : List SessionEvent :=
  [SessionEvent.client (some ClientMsg.cancel), SessionEvent.provider none]

/-! ## Dispatch queue / worker pool (`queue_service.py`) -/

/-- `TaskStatus` (`queue_service.py` lines 18–23). -/
inductive TaskStatus where
  | pending
  | processing
  | completed
  | failed
  deriving DecidableEq, Repr

/-- `TaskType` (lines 26–30). -/
inductive TaskType where
  | voiceAsr
  | textExtract
  | imageRecognize
  deriving DecidableEq, Repr

/-- A `Task` record (lines 33–49); `created_at`/`updated_at` wall-clock
timestamps are outside the embedding.  Payloads and results are kept opaque
as strings. -/
structure Task where
  id : String
  type : TaskType
  status : TaskStatus
  payload : String
  result : Option String
  error : Option String
  deriving DecidableEq, Repr

/-- `DEFAULT_MAX_CONCURRENT = 3` (line 87). -/
def DEFAULT_MAX_CONCURRENT : Nat := 3

/-- Handlers registered with `register_handler`: payload to result, or a
description of a raised exception (`Except.error`). -/
def Handlers := TaskType → Option (String → Except String String)

/-- The fresh `Task` built by `enqueue` (lines 162–168). -/
def mkTask (freshId : String) (ttype : TaskType) (payload : String) : Task :=
  { id := freshId, type := ttype, status := TaskStatus.pending,
    payload := payload, result := none, error := none }

/-- The externally visible effect of one `enqueue` call (lines 147–185):
the returned id, the `setex` of the record and the `lpush` of the id (durable
mode), or the `create_task(self._process_task_directly(task))` (fallback
mode). -/
structure EnqueueEffect where
  returnedId : String
  storedTask : Option Task
  pushedId : Option String
  directTask : Option Task
  deriving DecidableEq, Repr

/-- `QueueService.enqueue`: build the pending record under a fresh uuid; with
redis connected, store it and push its id; with no redis, schedule immediate
direct processing and return the id either way. -/
def enqueue (connected : Bool) (freshId : String) (ttype : TaskType)
    (payload : String) : EnqueueEffect :=
  let task := mkTask freshId ttype payload
  if connected then
    { returnedId := freshId, storedTask := some task, pushedId := some freshId,
      directTask := none }
  else
    { returnedId := freshId, storedTask := none, pushedId := none,
      directTask := some task }

/-- `_process_task_directly` (lines 214–229): no registered handler → return
with the record untouched; otherwise invoke the handler once with the payload
and mark the local record completed (with result) or failed (with the
exception text).  The first component lists the handler invocations performed
(one payload per call). -/
def processTaskDirectly (handlers : Handlers) (task : Task) :
    List String × Task :=
  match handlers task.type with
  | none => ([], task)
  | some h =>
    ([task.payload],
      match h task.payload with
      | Except.ok r => { task with status := TaskStatus.completed, result := some r }
      | Except.error e => { task with status := TaskStatus.failed, error := some e })

/-- `_process_task` (lines 275–305): no handler → failed with a descriptive
error; otherwise run the handler and write completed-with-result, or — any
exception being caught — failed with the description of the error.  The worker
never crashes: this function is total. -/
def processTask (handlers : Handlers) (task : Task) : Task :=
  match handlers task.type with
  | none => { task with status := TaskStatus.failed, error := some "handler not found" }
  | some h =>
    match h task.payload with
    | Except.ok r => { task with status := TaskStatus.completed, result := some r }
    | Except.error e => { task with status := TaskStatus.failed, error := some e }

/-- The redis task store (`voice_entry:task:<id>` keys); `none` models a
disconnected redis (`self._redis is None`). -/
def TaskStore := Option (List (String × Task))

def storeLookup (st : List (String × Task)) (taskId : String) : Option Task :=
  (st.find? (fun p => p.1 == taskId)).map Prod.snd

/-- `get_task` (lines 187–195): `None` without redis, otherwise the stored
record if its key is still present (absence also models TTL expiry). -/
def get_task (store : TaskStore) (taskId : String) : Option Task :=
  match store with
  | none => none
  | some st => storeLookup st taskId

/-- `get_result` (lines 197–202): the stored result only when the record
exists and is completed; otherwise `None`. -/
def get_result (store : TaskStore) (taskId : String) : Option String :=
  match get_task store taskId with
  | some task => if task.status = TaskStatus.completed then task.result else none
  | none => none

/-- Position of the `start_worker` loop (lines 243–266) within one
iteration. -/
inductive WorkerPos where
  | atCheck
  | dispatching
  deriving DecidableEq, Repr

/-- The in-flight counter `self._processing_count` plus the loop position.
Only the single worker loop increments the counter; decrements come from the
`finally` blocks of scheduled `_process_task` coroutines. -/
structure WorkerState where
  processingCount : Nat
  pos : WorkerPos
  deriving DecidableEq, Repr

/-- Interleaved execution of the worker loop and the scheduled task
coroutines.  `checkBusy` is the ceiling check failing
(`sleep(0.1); continue`); `checkFree` is it passing; `popMiss` is a `brpop`
timeout or an expired record (`continue`); `dispatch` is the
increment-under-lock followed by `create_task(_process_task(task))`;
`taskDone` is the `finally` decrement of a running task, which may interleave at
any suspension point. -/
inductive WorkerStep (maxConcurrent : Nat) : WorkerState → WorkerState → Prop where
  | checkBusy (c : Nat) (h : maxConcurrent ≤ c) :
      WorkerStep maxConcurrent ⟨c, WorkerPos.atCheck⟩ ⟨c, WorkerPos.atCheck⟩
  | checkFree (c : Nat) (h : c < maxConcurrent) :
      WorkerStep maxConcurrent ⟨c, WorkerPos.atCheck⟩ ⟨c, WorkerPos.dispatching⟩
  | popMiss (c : Nat) :
      WorkerStep maxConcurrent ⟨c, WorkerPos.dispatching⟩ ⟨c, WorkerPos.atCheck⟩
  | dispatch (c : Nat) :
      WorkerStep maxConcurrent ⟨c, WorkerPos.dispatching⟩ ⟨c + 1, WorkerPos.atCheck⟩
  | taskDone (c : Nat) (p : WorkerPos) (h : 0 < c) :
      WorkerStep maxConcurrent ⟨c, p⟩ ⟨c - 1, p⟩

/-- The worker starts with no in-flight task, at the top of the loop. -/
def workerInit : WorkerState := ⟨0, WorkerPos.atCheck⟩

/-- States reachable by any interleaving of loop iterations and task
completions. -/
def WorkerReachable (maxConcurrent : Nat) : WorkerState → Prop :=
  Relation.ReflTransGen (WorkerStep maxConcurrent) workerInit

/-- `get_queue_stats` (lines 312–327): without redis a constant record,
otherwise the queue length, the in-flight counter and the ceiling. -/
structure QueueStats where
  connected : Bool
  queueLength : Nat
  processing : Nat
  maxConcurrent : Option Nat
  deriving DecidableEq, Repr

def get_queue_stats (connected : Bool) (queueLength : Nat) (s : WorkerState)
    (maxConcurrent : Nat) : QueueStats :=
  if connected then
    { connected := true, queueLength := queueLength,
      processing := s.processingCount, maxConcurrent := some maxConcurrent }
  else
    { connected := false, queueLength := 0, processing := 0, maxConcurrent := none }

/-! ## Qwen extractor retry loop (`qwen_extractor.py`, `extract`) -/

/-- Outcome of one `chat.completions.create` call inside `extract`. -/
inductive CallOutcome where
  | success (resp : String)
  | rateLimited
  | apiError (msg : String)
  | otherError (msg : String)
  deriving DecidableEq, Repr

/-- The `for attempt in range(max_retries)` retry loop of `extract`
(lines 205–236), the outcome of the i-th call given by `outcomes i`.  Returns the
result and the list of back-off sleeps performed: on `RateLimitError` the
wait is `(2 ** attempt) * 5`, slept only when `attempt < max_retries - 1`;
the last rate-limited attempt raises `APIError` instead; `APIError` and any
other exception re-raise immediately.  `fuel` counts the remaining
iterations (`maxRetries - attempt`); `fuel = 0` means the loop ended with
`response` still `None` (only possible for `max_retries = 0`). -/
def retryLoop (outcomes : Nat → CallOutcome) (maxRetries : Nat) :
    Nat → Nat → Except String String × List Nat
  | _, 0 => (Except.error "no response", [])
  | attempt, fuel + 1 =>
    match outcomes attempt with
    | CallOutcome.success r => (Except.ok r, [])
    | CallOutcome.rateLimited =>
      let waitTime := 2 ^ attempt * 5
      if attempt < maxRetries - 1 then
        let rest := retryLoop outcomes maxRetries (attempt + 1) fuel
        (rest.1, waitTime :: rest.2)
      else
        (Except.error ("APIError: rate limited, failed after " ++
          toString maxRetries ++ " retries"), [])
    | CallOutcome.apiError m => (Except.error m, [])
    | CallOutcome.otherError m => (Except.error m, [])

/-- The API phase of one `extract` call: the retry loop started at attempt 0
(`max_retries` defaults to 3). -/
def extractCall (outcomes : Nat → CallOutcome) (maxRetries : Nat) :
    Except String String × List Nat :=
  retryLoop outcomes maxRetries 0 maxRetries

/-! ### Concrete fixtures used to instantiate the theorems -/

/-- A handler table with one registered extraction handler, as set up by
`main.py` (`register_handler(TaskType.TEXT_EXTRACT, ...)`). -/
def demoHandlers : Handlers := fun tt =>
  match tt with
  | TaskType.textExtract => some (fun p => Except.ok ("ok: " ++ p))
  | _ => none

/-- A store holding one completed and one failed task record. -/
def demoStore : TaskStore :=
  some [("done-id", { id := "done-id", type := TaskType.textExtract,
                      status := TaskStatus.completed, payload := "p",
                      result := some "r", error := none }),
        ("failed-id", { id := "failed-id", type := TaskType.textExtract,
                        status := TaskStatus.failed, payload := "p",
                        result := none, error := some "boom" })]

/-! ### Dictionary lemmas -/

theorem find?_filter_ne (m : RecText) (k j : Nat) (h : j ≠ k) :
    (m.filter (fun p => p.1 != k)).find? (fun p => p.1 == j) =
      m.find? (fun p => p.1 == j) := by
  induction m with
  | nil => rfl
  | cons a t ih =>
    rw [List.filter_cons]
    by_cases haj : a.1 = j
    · have hk : ((fun p => p.1 != k) a) = true := by
        simp only [bne_iff_ne, ne_eq]; rw [haj]; exact h
      rw [if_pos hk, List.find?_cons_of_pos _ (by simp [haj]),
        List.find?_cons_of_pos _ (by simp [haj])]
    · by_cases hak : a.1 = k
      · rw [if_neg (by simp [hak]), ih,
          List.find?_cons_of_neg _ (by simp [haj])]
      · rw [if_pos (by simp [hak]),
          List.find?_cons_of_neg _ (by simp [haj]),
          List.find?_cons_of_neg _ (by simp [haj]), ih]

theorem dictGet_dictSet (m : RecText) (k v j) :
    dictGet (dictSet m k v) j = if j = k then some v else dictGet m j := by
  by_cases h : j = k
  · subst h
    simp [dictGet, dictSet, List.find?_cons_of_pos]
  · rw [dictGet, dictSet, List.find?_cons_of_neg _ (by simp [Ne.symm h]),
      find?_filter_ne m k j h, if_neg h, dictGet]

theorem dictGet_dictPop (m : RecText) (k j) :
    dictGet (dictPop m k) j = if j = k then none else dictGet m j := by
  by_cases h : j = k
  · subst h
    simp only [dictGet, dictPop, if_pos rfl]
    rw [List.find?_eq_none.mpr]
    · rfl
    · intro p hp
      simp only [List.mem_filter, bne_iff_ne, ne_eq] at hp
      simp [hp.2]
  · simp [dictGet, dictPop, find?_filter_ne m k j h, h]

theorem dictGet_popRange (m : RecText) (lo hi j) :
    dictGet (popRange m lo hi) j =
      if lo ≤ j ∧ j ≤ hi then none else dictGet m j := by
  suffices H : ∀ n lo (m : RecText),
      dictGet ((List.range' lo n).foldl dictPop m) j =
        if lo ≤ j ∧ j < lo + n then none else dictGet m j by
    rw [popRange, H]
    by_cases h1 : lo ≤ j <;> by_cases h2 : j ≤ hi <;>
      simp [h1, h2] <;> omega
  intro n
  induction n with
  | zero =>
    intro lo m
    have hno : ¬(lo ≤ j ∧ j < lo) := by omega
    simp [hno]
  | succ n ih =>
    intro lo m
    rw [List.range'_succ, List.foldl_cons, ih, dictGet_dictPop]
    by_cases hj : j = lo
    · subst hj
      have : j ≤ j ∧ j < j + (n + 1) := by omega
      simp [this]
    · by_cases h1 : lo + 1 ≤ j ∧ j < lo + 1 + n
      · have : lo ≤ j ∧ j < lo + (n + 1) := by omega
        simp [h1, this, hj]
      · have : ¬(lo ≤ j ∧ j < lo + (n + 1)) := by omega
        simp [h1, this, hj]

/-- Pointwise effect of one update on the dictionary: the new binding at `j`
as a function of the old binding at `j` and the update alone. -/
def updGet (u : XfUpdate) (j : Nat) (prev : Option String) : Option String :=
  if u.text ≠ "" ∨ u.pgs = "rpl" then
    if u.pgs = "rpl" ∧ u.rg ≠ [] ∧ 2 ≤ u.rg.length then
      if j = u.rg.headD 0 then some u.text
      else if u.rg.headD 0 + 1 ≤ j ∧ j ≤ u.rg.getD 1 0 then none
      else prev
    else if j = u.sn.getD 0 then some u.text else prev
  else prev

theorem dictGet_applyUpdate (m : RecText) (u : XfUpdate) (j : Nat) :
    dictGet (applyUpdate m u) j = updGet u j (dictGet m j) := by
  unfold applyUpdate updGet
  by_cases h1 : u.text ≠ "" ∨ u.pgs = "rpl"
  · simp only [if_pos h1]
    by_cases h2 : u.pgs = "rpl" ∧ u.rg ≠ [] ∧ 2 ≤ u.rg.length
    · simp only [if_pos h2]
      rw [dictGet_popRange, dictGet_dictSet]
      by_cases hj : j = u.rg.headD 0
      · have hin : ¬(u.rg.headD 0 + 1 ≤ j ∧ j ≤ u.rg.getD 1 0) := by omega
        rw [if_neg hin, if_pos hj, if_pos hj]
      · by_cases hin : u.rg.headD 0 + 1 ≤ j ∧ j ≤ u.rg.getD 1 0
        · rw [if_pos hin, if_neg hj, if_pos hin]
        · rw [if_neg hin, if_neg hj, if_neg hj, if_neg hin]
    · simp only [if_neg h2]
      rw [dictGet_dictSet]
  · simp only [if_neg h1]

/-- Two reconciler states are observationally equal when every key reads the
same: this is equality of the underlying dictionaries. -/
def MapEq (m₁ m₂ : RecText) : Prop := ∀ k, dictGet m₁ k = dictGet m₂ k

theorem mapEq_trans {m₁ m₂ m₃ : RecText} (h₁ : MapEq m₁ m₂) (h₂ : MapEq m₂ m₃) :
    MapEq m₁ m₃ := fun k => (h₁ k).trans (h₂ k)

theorem dictGet_isSome_iff (m : RecText) (k : Nat) :
    (dictGet m k).isSome ↔ ∃ p, p ∈ m ∧ p.1 = k := by
  unfold dictGet
  cases hf : m.find? (fun p => p.1 == k) with
  | none =>
    simp only [Option.map_none', Option.isSome_none, Bool.false_eq_true, false_iff]
    rintro ⟨p, hp, hpk⟩
    have := List.find?_eq_none.mp hf p hp
    simp [hpk] at this
  | some p =>
    simp only [Option.map_some', Option.isSome_some, true_iff]
    refine ⟨p, List.mem_of_find?_eq_some hf, ?_⟩
    have := List.find?_some hf
    simpa using this

theorem mem_keys_iff (m : RecText) (k : Nat) :
    k ∈ (m.map Prod.fst).toFinset ↔ (dictGet m k).isSome := by
  rw [List.mem_toFinset, List.mem_map, dictGet_isSome_iff]

theorem get_current_text_eq_join (m : RecText) :
    get_current_text m =
      String.join ((sortedKeys m).map (fun k => (dictGet m k).getD "")) := by
  unfold get_current_text
  by_cases h : m = []
  · subst h
    have hs : sortedKeys ([] : RecText) = [] := by simp [sortedKeys]
    rw [if_pos rfl, hs]
    rfl
  · rw [if_neg h]

theorem sortedKeys_congr {m₁ m₂ : RecText} (h : MapEq m₁ m₂) :
    sortedKeys m₁ = sortedKeys m₂ := by
  have hperm : (m₁.map Prod.fst).dedup.Perm (m₂.map Prod.fst).dedup := by
    refine List.perm_of_nodup_nodup_toFinset_eq
      (List.nodup_dedup _) (List.nodup_dedup _) ?_
    ext k
    simp only [List.mem_toFinset, List.mem_dedup]
    rw [← List.mem_toFinset, mem_keys_iff, ← List.mem_toFinset, mem_keys_iff, h k]
  exact List.eq_of_perm_of_sorted
    ((List.perm_insertionSort _ _).trans
      (hperm.trans (List.perm_insertionSort _ _).symm))
    (List.sorted_insertionSort _ _) (List.sorted_insertionSort _ _)

theorem get_current_text_congr (m₁ m₂ : RecText) (h : MapEq m₁ m₂) :
    get_current_text m₁ = get_current_text m₂ := by
  rw [get_current_text_eq_join, get_current_text_eq_join]
  have hfun : (fun k => (dictGet m₁ k).getD "") =
      (fun k => (dictGet m₂ k).getD "") := by
    funext k; rw [h k]
  rw [sortedKeys_congr h, hfun]

theorem applyUpdate_congr {m₁ m₂ : RecText} (u : XfUpdate) (h : MapEq m₁ m₂) :
    MapEq (applyUpdate m₁ u) (applyUpdate m₂ u) := by
  intro k; rw [dictGet_applyUpdate, dictGet_applyUpdate, h k]

theorem updGet_appendUpd (p : Nat × String) (j : Nat) (prev : Option String) :
    updGet (appendUpd p) j prev =
      if p.2 ≠ "" then (if j = p.1 then some p.2 else prev) else prev := by
  unfold updGet appendUpd
  by_cases h : p.2 = "" <;> simp [h]

/-- Two non-replacement updates at distinct sequence numbers commute. -/
theorem appendUpd_comm (p q : Nat × String) (hpq : p.1 ≠ q.1) (m : RecText) :
    MapEq (applyUpdate (applyUpdate m (appendUpd p)) (appendUpd q))
          (applyUpdate (applyUpdate m (appendUpd q)) (appendUpd p)) := by
  intro k
  simp only [dictGet_applyUpdate, updGet_appendUpd]
  by_cases hp : p.2 = "" <;> by_cases hq : q.2 = "" <;>
    by_cases hkp : k = p.1 <;> by_cases hkq : k = q.1 <;>
      simp [hp, hq, hkp, hkq, hpq, Ne.symm hpq]

theorem applyAppends_cons (p : Nat × String) (us : List (Nat × String))
    (m : RecText) :
    applyAppends (p :: us) m = applyAppends us (applyUpdate m (appendUpd p)) := rfl

theorem applyAppends_congr (us : List (Nat × String)) {m₁ m₂ : RecText}
    (h : MapEq m₁ m₂) : MapEq (applyAppends us m₁) (applyAppends us m₂) := by
  induction us generalizing m₁ m₂ with
  | nil => exact h
  | cons p us ih =>
    rw [applyAppends_cons, applyAppends_cons]
    exact ih (applyUpdate_congr _ h)

/-- Non-replacement updates with pairwise-distinct sequence numbers reach
observationally equal reconciler states in any arrival order. -/
theorem applyAppends_perm (us us' : List (Nat × String)) (hperm : us.Perm us') :
    (us.map Prod.fst).Nodup →
      ∀ m₁ m₂ : RecText, MapEq m₁ m₂ →
        MapEq (applyAppends us m₁) (applyAppends us' m₂) := by
  induction hperm with
  | nil => intro _ m₁ m₂ h; exact h
  | cons p hp ih =>
    intro hnodup m₁ m₂ h
    rw [applyAppends_cons, applyAppends_cons]
    simp only [List.map_cons, List.nodup_cons] at hnodup
    exact ih hnodup.2 _ _ (applyUpdate_congr _ h)
  | swap x y l =>
    intro hnodup m₁ m₂ h
    rw [applyAppends_cons, applyAppends_cons, applyAppends_cons, applyAppends_cons]
    simp only [List.map_cons, List.nodup_cons, List.mem_cons] at hnodup
    refine applyAppends_congr l
      (mapEq_trans (applyUpdate_congr _ (applyUpdate_congr _ h))
        (appendUpd_comm y x ?_ m₂))
    exact fun hyx => hnodup.1 (Or.inl hyx)
  | trans h₁ h₂ ih₁ ih₂ =>
    intro hnodup m₁ m₂ h
    have hmid := (h₁.map Prod.fst).nodup hnodup
    exact mapEq_trans (ih₁ hnodup _ _ h) (ih₂ hmid _ _ (fun _ => rfl))

/-! ### Session lemmas -/

theorem sendStep_done_mono (s : SessionState) (m : Option ClientMsg)
    (h : s.done = true) : (sendStep s m).done = true := by
  by_cases hex : s.sendExited = true <;> simp [sendStep, hex, h]

theorem sendStep_frames_done (s : SessionState) (m : Option ClientMsg)
    (h : s.done = true) : (sendStep s m).sentFrames = s.sentFrames := by
  by_cases hex : s.sendExited = true <;> simp [sendStep, hex, h]

theorem recvStep_done_mono (s : SessionState) (pm : Option ProviderMsg)
    (h : s.done = true) : (recvStep s pm).done = true := by
  unfold recvStep
  split
  · exact h
  · cases pm with
    | none => rfl
    | some pm =>
      by_cases hc : pm.code ≠ 0
      · simp [hc, h]
      · by_cases hd : pm.hasData = true
        · by_cases hst : pm.status = 2 <;>
            by_cases hrec : pm.update.text ≠ "" ∨ pm.update.pgs = "rpl" <;>
              simp [hc, hd, hst, hrec, h]
        · simp [hc, hd, h]

theorem recvStep_frames (s : SessionState) (pm : Option ProviderMsg) :
    (recvStep s pm).sentFrames = s.sentFrames := by
  unfold recvStep
  split
  · rfl
  · cases pm with
    | none => rfl
    | some pm =>
      by_cases hc : pm.code ≠ 0
      · simp [hc]
      · by_cases hd : pm.hasData = true
        · by_cases hst : pm.status = 2 <;>
            by_cases hrec : pm.update.text ≠ "" ∨ pm.update.pgs = "rpl" <;>
              simp [hc, hd, hst, hrec]
        · simp [hc, hd]

theorem sessionStep_done_mono (s : SessionState) (e : SessionEvent)
    (h : s.done = true) : (sessionStep s e).done = true := by
  cases e with
  | client m => exact sendStep_done_mono s m h
  | provider pm => exact recvStep_done_mono s pm h

theorem sessionStep_frames_done (s : SessionState) (e : SessionEvent)
    (h : s.done = true) : (sessionStep s e).sentFrames = s.sentFrames := by
  cases e with
  | client m => exact sendStep_frames_done s m h
  | provider pm => exact recvStep_frames s pm

theorem foldl_frames_done (post : List SessionEvent) :
    ∀ s : SessionState, s.done = true →
      (post.foldl sessionStep s).sentFrames = s.sentFrames ∧
      (post.foldl sessionStep s).done = true := by
  induction post with
  | nil => intro s h; exact ⟨rfl, h⟩
  | cons e t ih =>
    intro s h
    rw [List.foldl_cons]
    obtain ⟨ht, hd⟩ := ih _ (sessionStep_done_mono s e h)
    exact ⟨ht.trans (sessionStep_frames_done s e h), hd⟩

/-! ### Replacement characterization -/

theorem dictGet_replacement (m : RecText) (sn : Option Nat) (t : String)
    (low high j : Nat) :
    dictGet (applyUpdate m { sn := sn, text := t, pgs := "rpl", rg := [low, high] }) j =
      if j = low then some t
      else if low + 1 ≤ j ∧ j ≤ high then none
      else dictGet m j := by
  rw [dictGet_applyUpdate]
  simp [updGet]

/-! ## The claims -/

/-- C1: for every finite sequence of non-replacement updates, in any arrival
order, `currentText()` equals the concatenation of the texts of the live
segments in ascending sequence order; in particular applying
`(sequence=3, "world")` then `(sequence=1, "hello ")` yields
`"hello world"`. -/
theorem C1_order_independent (us us' : List (Nat × String))
    (hperm : us.Perm us') (hnodup : (us.map Prod.fst).Nodup) :
    get_current_text (applyAppends us []) = get_current_text (applyAppends us' []) ∧
    get_current_text (applyAppends us []) =
      String.join ((sortedKeys (applyAppends us [])).map
        (fun k => (dictGet (applyAppends us []) k).getD "")) ∧
    get_current_text (applyAppends [(3, "world"), (1, "hello ")] []) = "hello world" := by
  refine ⟨?_, get_current_text_eq_join _, by decide⟩
  exact get_current_text_congr _ _
    (applyAppends_perm us us' hperm hnodup _ _ (fun _ => rfl))

/-- Witness for C1 at the example of the spec itself, in both arrival orders. -/
theorem C1_witness :
    get_current_text (applyAppends [(3, "world"), (1, "hello ")] []) =
      get_current_text (applyAppends [(1, "hello "), (3, "world")] []) ∧
    get_current_text (applyAppends [(3, "world"), (1, "hello ")] []) = "hello world" := by
  have h := C1_order_independent [(3, "world"), (1, "hello ")]
    [(1, "hello "), (3, "world")] (List.Perm.swap _ _ _) (by decide)
  exact ⟨h.1, h.2.2⟩

/-- The C2 clause "replacement with `lowSeq == highSeq` has the same effect as a plain
append at `lowSeq`" fails for empty text: the replacement `rg = [0, 0]` with
text `""` records an empty segment at key 0 (the `pgs == "rpl"` disjunct of
`if partial_text or pgs == "rpl"` holds), while the plain append with the
same empty text is dropped entirely, so the two states differ at key 0. -/
theorem C2_counterexample :
    applyUpdate [] { sn := some 0, text := "", pgs := "rpl", rg := [0, 0] } = [(0, "")] ∧
    applyUpdate [] { sn := some 0, text := "", pgs := "apd", rg := [] } = [] ∧
    dictGet (applyUpdate [] { sn := some 0, text := "", pgs := "rpl", rg := [0, 0] }) 0 ≠
      dictGet (applyUpdate [] { sn := some 0, text := "", pgs := "apd", rg := [] }) 0 := by
  decide

/-- C2 amended: in any reconciler state, a replacement update with range
`[lowSeq, highSeq]` sets the segment at `lowSeq` to the text of the update,
removes every key `k` with `lowSeq < k ≤ highSeq`, and leaves every key
outside the range unchanged; a replacement with `lowSeq == highSeq` and
nonempty text has the same effect (at every key) as a plain append at
`lowSeq`, while with empty text the replacement still records an empty
segment at `lowSeq` whereas the plain append is dropped. -/
theorem C2_replacement_semantics (m : RecText) (sn : Option Nat) (t : String)
    (low high : Nat) :
    dictGet (applyUpdate m { sn := sn, text := t, pgs := "rpl", rg := [low, high] })
      low = some t ∧
    (∀ k, low < k → k ≤ high →
      dictGet (applyUpdate m { sn := sn, text := t, pgs := "rpl", rg := [low, high] })
        k = none) ∧
    (∀ k, k ≠ low → ¬(low < k ∧ k ≤ high) →
      dictGet (applyUpdate m { sn := sn, text := t, pgs := "rpl", rg := [low, high] })
        k = dictGet m k) ∧
    (t ≠ "" →
      MapEq (applyUpdate m { sn := sn, text := t, pgs := "rpl", rg := [low, low] })
            (applyUpdate m (appendUpd (low, t)))) := by
  refine ⟨?_, ?_, ?_, ?_⟩
  · rw [dictGet_replacement]; simp
  · intro k hk1 hk2
    rw [dictGet_replacement]
    have h1 : ¬ k = low := by omega
    have h2 : low + 1 ≤ k ∧ k ≤ high := by omega
    simp [h1, h2]
  · intro k hk1 hk2
    rw [dictGet_replacement]
    have h2 : ¬ (low + 1 ≤ k ∧ k ≤ high) := by omega
    simp [hk1, h2]
  · intro ht k
    rw [dictGet_replacement, dictGet_applyUpdate, updGet_appendUpd]
    by_cases hk : k = low
    · simp [hk, ht]
    · have h2 : ¬ (low + 1 ≤ k ∧ k ≤ low) := by omega
      simp [hk, ht, h2]

/-- Witness for C2 amended: the replacement `[2, 4]` over `{3, 5}` rewrites
key 2, removes key 3, leaves key 5; and a nonempty `[1, 1]` replacement reads
like the plain append at 1. -/
theorem C2_witness :
    dictGet (applyUpdate [(3, "x"), (5, "y")]
      { sn := some 9, text := "cc", pgs := "rpl", rg := [2, 4] }) 2 = some "cc" ∧
    dictGet (applyUpdate [(3, "x"), (5, "y")]
      { sn := some 9, text := "cc", pgs := "rpl", rg := [2, 4] }) 3 = none ∧
    dictGet (applyUpdate [(3, "x"), (5, "y")]
      { sn := some 9, text := "cc", pgs := "rpl", rg := [2, 4] }) 5 =
      dictGet [(3, "x"), (5, "y")] 5 ∧
    dictGet (applyUpdate [] { sn := some 9, text := "hi", pgs := "rpl", rg := [1, 1] }) 1 =
      dictGet (applyUpdate [] (appendUpd (1, "hi"))) 1 :=
  ⟨(C2_replacement_semantics [(3, "x"), (5, "y")] (some 9) "cc" 2 4).1,
   (C2_replacement_semantics [(3, "x"), (5, "y")] (some 9) "cc" 2 4).2.1 3
     (by decide) (by decide),
   (C2_replacement_semantics [(3, "x"), (5, "y")] (some 9) "cc" 2 4).2.2.1 5
     (by decide) (by decide),
   (C2_replacement_semantics [] (some 9) "hi" 1 1).2.2.2 (by decide) 1⟩

/-- C6 fails on the code: `if partial_text or pgs == "rpl"` skips a
non-replacement update with empty text entirely, so the sequence is not
recorded — after applying `(sequence=5, "")` to an empty reconciler, key 5 is
absent. -/
theorem C6_counterexample :
    applyUpdate [] (appendUpd (5, "")) = [] ∧
    dictGet (applyUpdate [] (appendUpd (5, ""))) 5 = none ∧
    5 ∉ ((applyUpdate [] (appendUpd (5, ""))).map Prod.fst) := by
  decide

/-- C6 amended: a non-replacement update with empty text is dropped entirely:
the segment map is unchanged (the sequence is not recorded, so "model
produced nothing yet" is indistinguishable from "sequence unseen") and
`currentText()` is unchanged. -/
theorem C6_empty_append_skipped (m : RecText) (s : Nat) :
    applyUpdate m (appendUpd (s, "")) = m ∧
    get_current_text (applyUpdate m (appendUpd (s, ""))) = get_current_text m := by
  have h : applyUpdate m (appendUpd (s, "")) = m := by
    simp [applyUpdate, appendUpd]
  exact ⟨h, by rw [h]⟩

/-- C7 fails on the code: an update missing its sequence number is not
rejected to the caller — `result_obj.get("sn", 0)` silently defaults it to 0
and the update is applied there, changing `currentText()`. -/
theorem C7_counterexample :
    dictGet (applyUpdate [] { sn := none, text := "x", pgs := "apd", rg := [] }) 0 =
      some "x" ∧
    applyUpdate [] { sn := none, text := "x", pgs := "apd", rg := [] } ≠ [] ∧
    get_current_text (applyUpdate [] { sn := none, text := "x", pgs := "apd", rg := [] })
      = "x" := by
  decide

/-- C7 amended: an update missing its sequence number is not rejected: it is
applied with the default sequence number 0 (identically to the same update
with `sn = 0`).  The reconciler is a total function that never throws on any
update; arbitrary gaps between sequence numbers are accepted, absent
sequences contributing nothing to `currentText()` (appends at 1 and 100
render as their plain concatenation). -/
theorem C7_missing_sn_default (m : RecText) (u : XfUpdate) (hsn : u.sn = none)
    (t₁ t₂ : String) (h₁ : t₁ ≠ "") (h₂ : t₂ ≠ "") :
    applyUpdate m u = applyUpdate m { u with sn := some 0 } ∧
    get_current_text (applyAppends [(1, t₁), (100, t₂)] []) = t₁ ++ t₂ := by
  constructor
  · simp [applyUpdate, hsn]
  · have hstate : applyAppends [(1, t₁), (100, t₂)] [] = [(100, t₂), (1, t₁)] := by
      simp [applyAppends, applyUpdate, appendUpd, dictSet, h₁, h₂, List.filter]
    have hs : sortedKeys [(100, t₂), (1, t₁)] = [1, 100] := by
      simp [sortedKeys, List.dedup, List.insertionSort, List.orderedInsert,
        List.pwFilter]
    rw [hstate, get_current_text_eq_join, hs]
    simp [dictGet, List.find?]
    rfl

/-- Witness for C7 amended at a concrete missing-`sn` update and the
`1`/`100` gap example. -/
theorem C7_witness :
    applyUpdate [] { sn := none, text := "x", pgs := "apd", rg := [] } =
      applyUpdate [] { sn := some 0, text := "x", pgs := "apd", rg := [] } ∧
    get_current_text (applyAppends [(1, "hello "), (100, "world")] []) =
      "hello " ++ "world" := by
  have h := C7_missing_sn_default []
    { sn := none, text := "x", pgs := "apd", rg := [] } rfl
    "hello " "world" (by decide) (by decide)
  exact ⟨h.1, h.2⟩

/-- C3 fails on the code: in the run where the client cancels before any
provider activity (no provider terminal status anywhere in the trace) and the
receive pump then times out, both pumps exit and the provider socket is
closed, but `voice_entry_websocket` still sends `text_final` (with the text
reconciled so far, here empty) after `transcribe_realtime` returns. -/
theorem C3_counterexample :
    cancelTrace.all (fun e => !isProviderTerminal e) = true ∧
    (sessionRun cancelTrace).sendExited = true ∧
    (sessionRun cancelTrace).recvExited = true ∧
    (sessionRun cancelTrace).sentEndFrame = false ∧
    ServerMsg.textFinal "" ∈ (routeSession cancelTrace true).clientOut := by
  decide

/-- C3 amended: a client cancel makes the send pump exit immediately without
forwarding anything further and without sending the final frame; the receive
pump exits on its read timeout, setting the done flag; the provider
connection is closed in every run — but as long as the client websocket stays
open the route handler still emits `text_final` carrying the reconciled text
(only an actual disconnect, where the sends fail, prevents it). -/
theorem C3_cancel_amended :
    (∀ s : SessionState, s.sendExited = false → s.done = false →
      (sendStep s (some ClientMsg.cancel)).sendExited = true ∧
      (sendStep s (some ClientMsg.cancel)).sentFrames = s.sentFrames ∧
      (sendStep s (some ClientMsg.cancel)).sentEndFrame = s.sentEndFrame) ∧
    (∀ s : SessionState, s.recvExited = false →
      (recvStep s none).recvExited = true ∧ (recvStep s none).done = true) ∧
    (∀ events : List SessionEvent,
      (routeSession events true).providerClosed = true ∧
      ServerMsg.textFinal (sessionRun events).fullText ∈
        (routeSession events true).clientOut) := by
  refine ⟨?_, ?_, ?_⟩
  · intro s h1 h2
    simp [sendStep, h1, h2]
  · intro s h1
    simp [recvStep, h1]
  · intro events
    simp [routeSession]

/-- Witness for C3 amended at the concrete cancel run. -/
theorem C3_amended_witness :
    (sendStep initialSession (some ClientMsg.cancel)).sendExited = true ∧
    (recvStep initialSession none).done = true ∧
    ServerMsg.textFinal (sessionRun cancelTrace).fullText ∈
      (routeSession cancelTrace true).clientOut :=
  ⟨(C3_cancel_amended.1 initialSession rfl rfl).1,
   (C3_cancel_amended.2.1 initialSession rfl).2,
   (C3_cancel_amended.2.2 cancelTrace).2⟩

/-- C4: once the done flag is set, no further audio frame is forwarded to the
provider — extending any run past a point where the flag is set leaves the
list of forwarded frames unchanged, and a wake-up that reads an audio chunk
with the flag set drops it. -/
theorem C4_no_audio_after_done (pre post : List SessionEvent)
    (h : (sessionRun pre).done = true) :
    (sessionRun (pre ++ post)).sentFrames = (sessionRun pre).sentFrames ∧
    (∀ (s : SessionState) (d : String), s.done = true →
      (sendStep s (some (ClientMsg.audio d))).sentFrames = s.sentFrames) := by
  constructor
  · rw [sessionRun, List.foldl_append]
    exact (foldl_frames_done post _ h).1
  · intro s d hs
    exact sendStep_frames_done s _ hs

/-- Witness for C4: after the receive pump observes the terminal status, a
subsequently read audio chunk is dropped. -/
theorem C4_witness :
    (sessionRun ([SessionEvent.provider none] ++
        [SessionEvent.client (some (ClientMsg.audio "QUJD"))])).sentFrames =
      (sessionRun [SessionEvent.provider none]).sentFrames ∧
    (sessionRun [SessionEvent.provider none]).done = true :=
  ⟨(C4_no_audio_after_done [SessionEvent.provider none]
      [SessionEvent.client (some (ClientMsg.audio "QUJD"))] (by decide)).1,
   by decide⟩

/-- C5: in every state of the worker loop reachable by any interleaving of
loop iterations and task completions, the in-flight counter — the value
`stats` reports as `processing` — never exceeds the concurrency ceiling:
the loop waits at the ceiling, increments before scheduling, and the cleanup of each task
decrements. -/
theorem C5_inflight_bounded (maxConcurrent : Nat) (s : WorkerState)
    (h : WorkerReachable maxConcurrent s) :
    s.processingCount ≤ maxConcurrent ∧
    (∀ queueLength : Nat,
      (get_queue_stats true queueLength s maxConcurrent).processing ≤
        maxConcurrent) := by
  have inv : s.processingCount ≤ maxConcurrent ∧
      (s.pos = WorkerPos.dispatching → s.processingCount < maxConcurrent) := by
    induction h with
    | refl => exact ⟨Nat.zero_le _, fun hp => by simp [workerInit] at hp⟩
    | tail hr hstep ih =>
      cases hstep with
      | checkBusy c hc => exact ⟨ih.1, fun hp => by simp at hp⟩
      | checkFree c hc => exact ⟨Nat.le_of_lt hc, fun _ => hc⟩
      | popMiss c => exact ⟨ih.1, fun hp => by simp at hp⟩
      | dispatch c =>
        have hlt : c < maxConcurrent := ih.2 rfl
        refine ⟨?_, fun hp => by simp at hp⟩
        show c + 1 ≤ maxConcurrent
        omega
      | taskDone c p hc =>
        have hle : c ≤ maxConcurrent := ih.1
        refine ⟨?_, fun hp => ?_⟩
        · show c - 1 ≤ maxConcurrent
          omega
        · have hlt : c < maxConcurrent := ih.2 hp
          show c - 1 < maxConcurrent
          omega
  exact ⟨inv.1, fun ql => by simpa [get_queue_stats] using inv.1⟩

/-- Witness for C5: the state reached by one check-and-dispatch under the
default ceiling 3 has one in-flight task, within the bound. -/
theorem C5_witness :
    (⟨1, WorkerPos.atCheck⟩ : WorkerState).processingCount ≤
      DEFAULT_MAX_CONCURRENT ∧
    (get_queue_stats true 0 ⟨1, WorkerPos.atCheck⟩
      DEFAULT_MAX_CONCURRENT).processing ≤ DEFAULT_MAX_CONCURRENT := by
  have hreach : WorkerReachable DEFAULT_MAX_CONCURRENT ⟨1, WorkerPos.atCheck⟩ :=
    Relation.ReflTransGen.tail
      (Relation.ReflTransGen.tail Relation.ReflTransGen.refl
        (WorkerStep.checkFree 0 (by decide)))
      (WorkerStep.dispatch 0)
  have h := C5_inflight_bounded DEFAULT_MAX_CONCURRENT ⟨1, WorkerPos.atCheck⟩ hreach
  exact ⟨h.1, h.2 0⟩

/-- C8: with no durable store connected, `enqueue` still returns the freshly
generated task id, stores nothing and pushes nothing onto the queue (so no
worker loop is involved), and schedules direct execution in which a handler
registered for the type of the task is invoked exactly once with the payload. -/
theorem C8_direct_fallback (freshId : String) (ttype : TaskType)
    (payload : String) (handlers : Handlers)
    (h : String → Except String String) (hh : handlers ttype = some h) :
    (enqueue false freshId ttype payload).returnedId = freshId ∧
    (enqueue false freshId ttype payload).storedTask = none ∧
    (enqueue false freshId ttype payload).pushedId = none ∧
    (enqueue false freshId ttype payload).directTask =
      some (mkTask freshId ttype payload) ∧
    (processTaskDirectly handlers (mkTask freshId ttype payload)).1 = [payload] := by
  refine ⟨rfl, rfl, rfl, rfl, ?_⟩
  simp [processTaskDirectly, mkTask, hh]

/-- Witness for C8 with the registered extraction handler. -/
theorem C8_witness :
    (enqueue false "id-1" TaskType.textExtract "text").returnedId = "id-1" ∧
    (processTaskDirectly demoHandlers
      (mkTask "id-1" TaskType.textExtract "text")).1 = ["text"] := by
  have h := C8_direct_fallback "id-1" TaskType.textExtract "text" demoHandlers
    (fun p => Except.ok ("ok: " ++ p)) rfl
  exact ⟨h.1, h.2.2.2.2⟩

/-- C9: when every API call is rate-limited, the `extract` retry loop with
its default 3 attempts sleeps the exponential back-offs `2 ^ 0 * 5` and
`2 ^ 1 * 5` seconds and then raises an API error; a worker task whose handler
surfaces that error is recorded as failed with the description of the error — the
worker itself does not crash (`processTask` is total and returns this
record). -/
theorem C9_rate_limit_retry (outcomes : Nat → CallOutcome)
    (hrl : ∀ i, i < 3 → outcomes i = CallOutcome.rateLimited)
    (task : Task) (handlers : Handlers)
    (hh : handlers task.type = some (fun _ => (extractCall outcomes 3).1)) :
    (extractCall outcomes 3).2 = [2 ^ 0 * 5, 2 ^ 1 * 5] ∧
    ∃ e, (extractCall outcomes 3).1 = Except.error e ∧
      (processTask handlers task).status = TaskStatus.failed ∧
      (processTask handlers task).error = some e := by
  have h0 := hrl 0 (by omega)
  have h1 := hrl 1 (by omega)
  have h2 := hrl 2 (by omega)
  have hcall : extractCall outcomes 3 =
      (Except.error ("APIError: rate limited, failed after " ++
        toString 3 ++ " retries"), [5, 10]) := by
    simp [extractCall, retryLoop, h0, h1, h2]
  refine ⟨by rw [hcall]; decide, _, by rw [hcall], ?_, ?_⟩
  · simp [processTask, hh, hcall]
  · simp [processTask, hh, hcall]

/-- Witness for C9: the always-rate-limited outcome sequence. -/
theorem C9_witness :
    (extractCall (fun _ => CallOutcome.rateLimited) 3).2 = [2 ^ 0 * 5, 2 ^ 1 * 5] ∧
    (processTask
      (fun _ => some (fun _ => (extractCall (fun _ => CallOutcome.rateLimited) 3).1))
      (mkTask "id-2" TaskType.textExtract "text")).status = TaskStatus.failed := by
  have h := C9_rate_limit_retry (fun _ => CallOutcome.rateLimited)
    (fun _ _ => rfl) (mkTask "id-2" TaskType.textExtract "text")
    (fun _ => some (fun _ => (extractCall (fun _ => CallOutcome.rateLimited) 3).1))
    rfl
  exact ⟨h.1, h.2.choose_spec.2.1⟩

/-- C10: `get_result` returns a stored result only for an existing record in
completed status; any record in another status reads as absent (so a failed
task is indistinguishable from a pending or expired one through
`get_result`); and with no durable store both `get_task` and `get_result`
return absent for every id, including the id of a directly executed task. -/
theorem C10_get_result_semantics :
    (∀ (store : TaskStore) (taskId r : String),
      get_result store taskId = some r →
      ∃ t, get_task store taskId = some t ∧
        t.status = TaskStatus.completed ∧ t.result = some r) ∧
    (∀ (store : TaskStore) (taskId : String) (t : Task),
      get_task store taskId = some t → t.status ≠ TaskStatus.completed →
      get_result store taskId = none) ∧
    (∀ taskId : String,
      get_task none taskId = none ∧ get_result none taskId = none) ∧
    (∀ (handlers : Handlers) (task : Task),
      get_task none (processTaskDirectly handlers task).2.id = none) := by
  refine ⟨?_, ?_, ?_, ?_⟩
  · intro store taskId r hr
    unfold get_result at hr
    cases hg : get_task store taskId with
    | none => simp [hg] at hr
    | some t =>
      simp only [hg] at hr
      by_cases hs : t.status = TaskStatus.completed
      · rw [if_pos hs] at hr
        exact ⟨t, hg ▸ rfl, hs, hr⟩
      · rw [if_neg hs] at hr
        cases hr
  · intro store taskId t hg hs
    simp [get_result, hg, hs]
  · intro taskId
    exact ⟨rfl, rfl⟩
  · intro handlers task
    rfl

/-- Witness for C10 on the demo store: the result of the completed record is
readable, the failed record reads as absent, the disconnected store reads as
absent. -/
theorem C10_witness :
    (∃ t, get_task demoStore "done-id" = some t ∧
      t.status = TaskStatus.completed ∧ t.result = some "r") ∧
    get_result demoStore "failed-id" = none ∧
    get_task (none : TaskStore) "done-id" = none :=
  ⟨C10_get_result_semantics.1 demoStore "done-id" "r" (by decide),
   C10_get_result_semantics.2.1 demoStore "failed-id"
     { id := "failed-id", type := TaskType.textExtract,
       status := TaskStatus.failed, payload := "p",
       result := none, error := some "boom" } (by decide) (by decide),
   (C10_get_result_semantics.2.2.1 "done-id").1⟩

end SmarticeIMS
